import Mathlib

/-!
Shallow embedding of OpenOCD's firmware image loader (`src/target/image.c`):
the CRC-32 checksum engine, the Intel-HEX and Motorola S-record text parsers,
the ELF-32 program-header scan, and the uniform section read / close API.

Machine integers are modelled as `Nat` with explicit `% 2^w` at the points where
the C code truncates.  Fallible operations return `Except`/`Option`; `Option`
results use `none` for executions that dereference a null pointer or index past
an allocation (undefined behavior in the C).  The line-oriented text input is
modelled after the `sscanf` tokenization layer: a record carries the numeric
fields the format strings extract and the list of remaining two-hex-digit byte
values on the line.  File I/O is modelled as an in-memory byte list; I/O
failures of the host filesystem are out of scope.
-/

deriving instance DecidableEq for Except

namespace ImageC

/-- Error kinds surfaced by image.c (names of the ERROR_* codes it returns).
`badArgs` stands for ERROR_COMMAND_SYNTAX_ERROR (the spec's *syntax error*),
`tempUnavailable` for ERROR_IMAGE_TEMPORARILY_UNAVAILABLE. -/
inductive ImgError where
  | format
  | checksum
  | badArgs
  | tempUnavailable
  deriving DecidableEq, Repr

/-- IMAGE_MAX_SECTIONS, the size of the scratch section array the text parsers
allocate (the constant lives in image.h; its value 128 is fixed by the spec and
by the allocation sites in image.c). -/
def IMAGE_MAX_SECTIONS : Nat := 128

/-- Modelled from the spec: IMAGE_MEMORY_CACHE_SIZE is defined in image.h,
which is not part of the sources; the spec fixes it as an implementation-chosen
power of two, typical value 512, which we adopt. -/
def IMAGE_MEMORY_CACHE_SIZE : Nat := 512

/-! ## CRC-32 engine (image_calculate_checksum) -/

/-- The GDB CRC-32 polynomial used by image_calculate_checksum. -/
def crc32Poly : Nat := 0x04c11db7

/-- One inner iteration of the table build:
`c = c & 0x80000000 ? (c << 1) ^ 0x04c11db7 : (c << 1)` on a 32-bit unsigned. -/
def crc32TableStep (c : Nat) : Nat :=
  if c &&& 0x80000000 ≠ 0 then ((c <<< 1) ^^^ crc32Poly) % 2 ^ 32
  else (c <<< 1) % 2 ^ 32

/-- Entry `i` of the 256-entry table: start from `i << 24` and apply eight
table-build iterations, as in the `first_init` block of the C code. -/
def crc32TableEntry (i : Nat) : Nat :=
  Nat.iterate crc32TableStep 8 ((i <<< 24) % 2 ^ 32)

/-- The per-byte update `crc = (crc << 8) ^ crc32_table[((crc >> 24) ^ b) & 255]`
on a 32-bit unsigned `crc`. -/
def crcUpdate (crc b : Nat) : Nat :=
  ((crc <<< 8) ^^^ crc32TableEntry (((crc >>> 24) ^^^ b) &&& 255)) % 2 ^ 32

/-- Result of image_calculate_checksum: the final CRC, or
ERROR_SERVER_INTERRUPTED when a shutdown request is observed between runs. -/
inductive CrcResult where
  | ok (crc : Nat)
  | interrupted
  deriving DecidableEq, Repr

/-- The chunked main loop of image_calculate_checksum: process runs of at most
32768 bytes; after each run issue the liveness tick and poll the shutdown flag
(`sd k` is the answer of the k-th poll), returning interrupted when it is set. -/
def checksumLoop (sd : Nat → Bool) (bytes : List Nat) (crc k : Nat) : CrcResult :=
  if bytes.isEmpty then .ok crc
  else
    let run := min bytes.length 32768
    let crc2 := (bytes.take run).foldl crcUpdate crc
    if sd k then .interrupted
    else checksumLoop sd (bytes.drop run) crc2 (k + 1)
  termination_by bytes.length
  decreasing_by
    simp only [List.length_drop]
    have hb : bytes.length ≠ 0 := by
      simpa [List.isEmpty_iff_length_eq_zero] using ‹¬bytes.isEmpty = true›
    omega

/-- image_calculate_checksum over a byte span, with shutdown-poll oracle `sd`:
the CRC starts at 0xffffffff and the loop runs over the whole buffer. -/
def image_calculate_checksum (buffer : List Nat) (sd : Nat → Bool) : CrcResult :=
  checksumLoop sd buffer 0xffffffff 0

/-! ## Text-format sections (IHEX and S-record scratch array entries) -/

/-- A section as assembled by the text parsers: the scratch `imagesection`
fields together with the decoded bytes its `private` pointer designates in the
shared decode buffer (a section owns `size` bytes of the decoded stream). -/
structure TextSection where
  base_address : Nat
  size : Nat
  flags : Nat
  bytes : List Nat
  deriving DecidableEq, Repr

/-- A freshly initialized scratch slot: `size = 0`, `flags = 0`, base address
zero, `private` at the current write position of the decode buffer. -/
def freshSection : TextSection := ⟨0, 0, 0, []⟩

/-- `sscanf("%2x")` of the byte pairs at indices `start, start+1, …` of the
line tail `l`: each extraction yields one byte value, of which the parsers
store and sum the `(uint8_t)` truncation.  An index past the end of the line
models a failed conversion and yields 0. -/
def readBytes (l : List Nat) (start n : Nat) : List Nat :=
  (List.range n).map (fun i => l.getD (start + i) 0 % 256)

/-! ## IHEX parser (image_ihex_buffer_complete_inner) -/

/-- One non-blank, non-comment IHEX line `:CCAAAATT<data...>KK` after the
`sscanf(":%2x%4x%2x")` tokenization: `count`, `address`, `recordType` are the
three header fields and `rest` lists the remaining two-hex-digit byte values
of the line (payload bytes followed by the checksum byte). -/
structure IhexRecord where
  count : Nat
  address : Nat
  recordType : Nat
  rest : List Nat
  deriving DecidableEq, Repr

/-- Parser state of image_ihex_buffer_complete_inner: the running
`full_address`, the scratch entries `0 .. num_sections-1` (`closed`), the
scratch entry `num_sections` being filled (`cur`), the `end_rec` flag, the
last committed copy of `image->sections` (made at each type-01 record), and
the start-address fields of the image. -/
structure IhexState where
  fullAddress : Nat
  closed : List TextSection
  cur : TextSection
  endRec : Bool
  committed : Option (List TextSection)
  startAddress : Nat
  startAddressSet : Bool
  deriving DecidableEq, Repr

/-- State at entry of the outer loop: `full_address = 0`, no sections yet,
fresh current slot. -/
def ihexInit : IhexState := ⟨0, [], freshSection, false, none, 0, false⟩

/-- The nonconsecutive-location path shared by IHEX record types 00/02/04:
when the current section is non-empty, close it (`num_sections++`) and fail
with ERROR_IMAGE_FORMAT_ERROR if that reaches IMAGE_MAX_SECTIONS; then set the
current section's base address and the running address to `newAddr`. -/
def ihexRebase (st : IhexState) (newAddr : Nat) : Except ImgError IhexState :=
  if st.cur.size ≠ 0 then
    if st.closed.length + 1 ≥ IMAGE_MAX_SECTIONS then .error .format
    else .ok { st with closed := st.closed ++ [st.cur],
                       cur := { freshSection with base_address := newAddr },
                       fullAddress := newAddr }
  else .ok { st with cur := { st.cur with base_address := newAddr },
                     fullAddress := newAddr }

/-- Shared tail of the IHEX record loop: read the checksum byte `ck`, compare
it with the two's complement of the calculated 8-bit sum `cal` (failing with
ERROR_IMAGE_CHECKSUM on mismatch), then clear `end_rec` (the C logs the
continuing-after-end-of-file warning there). -/
def ihexFinishRecord (st : IhexState) (cal ck : Nat) : Except ImgError IhexState :=
  if ck % 256 ≠ (256 - cal % 256) % 256 then .error .checksum
  else .ok { st with endRec := false }

/-- `be_to_h_u32` applied to the host representation of a 32-bit value on a
little-endian host: the byte-reversed value.  (The spec flags this re-decoding
of the type-05 payload as intentional observed behavior.) -/
def byteSwap32 (v : Nat) : Nat :=
  ((v % 256) <<< 24) ||| (((v >>> 8) % 256) <<< 16) |||
    (((v >>> 16) % 256) <<< 8) ||| ((v >>> 24) % 256)

/-- Processing of one IHEX record by the body of the line loop of
image_ihex_buffer_complete_inner.  The checksum accumulator starts from the
three header fields; each branch mirrors the corresponding `record_type`
arm of the C code.  A type-01 record performs the `num_sections++`, copies the
scratch sections into `image->sections` and breaks; the outer loop's re-entry
(`full_address = 0`, fresh scratch slot) is folded into the same step. -/
def ihexStep (st : IhexState) (r : IhexRecord) : Except ImgError IhexState :=
  let cal0 := r.count % 256 + (r.address >>> 8) % 256 + r.address % 256 + r.recordType % 256
  if r.recordType = 0 then
    /- Data record: rebase on a nonconsecutive low-16 address, then append
    `count` decoded bytes, advancing size, buffer and full_address. -/
    match (if (st.fullAddress &&& 0xffff) ≠ r.address then
             ihexRebase st ((st.fullAddress &&& 0xffff0000) ||| r.address)
           else .ok st) with
    | .error e => .error e
    | .ok st1 =>
        let data := readBytes r.rest 0 r.count
        let st2 := { st1 with
          cur := { st1.cur with
                   size := st1.cur.size + r.count,
                   bytes := st1.cur.bytes ++ data },
          fullAddress := (st1.fullAddress + r.count) % 2 ^ 32 }
        ihexFinishRecord st2 (cal0 + data.sum) (r.rest.getD r.count 0)
  else if r.recordType = 1 then
    /- End-of-file record: num_sections++ (no bound check here), copy the
    scratch sections to image->sections, set end_rec and break. -/
    .ok { st with closed := st.closed ++ [st.cur],
                  committed := some (st.closed ++ [st.cur]),
                  cur := freshSection, fullAddress := 0, endRec := true }
  else if r.recordType = 2 then
    /- Extended segment address record: 16-bit value from the next four hex
    digits; on (full_address >> 4) != upper_address, rebase to
    (full_address & 0xffff) | (upper_address << 4). -/
    let upper := (r.rest.getD 0 0 % 256) * 256 + r.rest.getD 1 0 % 256
    let cal := cal0 + (upper >>> 8) % 256 + upper % 256
    match (if st.fullAddress >>> 4 ≠ upper then
             ihexRebase st ((st.fullAddress &&& 0xffff) ||| (upper <<< 4))
           else .ok st) with
    | .error e => .error e
    | .ok st1 => ihexFinishRecord st1 cal (r.rest.getD 2 0)
  else if r.recordType = 3 then
    /- Start segment address record: consumed for the checksum only. -/
    let data := readBytes r.rest 0 r.count
    ihexFinishRecord st (cal0 + data.sum) (r.rest.getD r.count 0)
  else if r.recordType = 4 then
    /- Extended linear address record: on (full_address >> 16) !=
    upper_address, rebase to (full_address & 0xffff) | (upper_address << 16). -/
    let upper := (r.rest.getD 0 0 % 256) * 256 + r.rest.getD 1 0 % 256
    let cal := cal0 + (upper >>> 8) % 256 + upper % 256
    match (if st.fullAddress >>> 16 ≠ upper then
             ihexRebase st ((st.fullAddress &&& 0xffff) ||| (upper <<< 16))
           else .ok st) with
    | .error e => .error e
    | .ok st1 => ihexFinishRecord st1 cal (r.rest.getD 2 0)
  else if r.recordType = 5 then
    /- Start linear address record: 32-bit value from the next eight hex
    digits; stored through the be_to_h_u32 reinterpretation. -/
    let sa := ((r.rest.getD 0 0 % 256) <<< 24) ||| ((r.rest.getD 1 0 % 256) <<< 16) |||
              ((r.rest.getD 2 0 % 256) <<< 8) ||| (r.rest.getD 3 0 % 256)
    let cal := cal0 + (sa >>> 24) % 256 + (sa >>> 16) % 256 + (sa >>> 8) % 256 + sa % 256
    ihexFinishRecord { st with startAddress := byteSwap32 sa, startAddressSet := true }
      cal (r.rest.getD 4 0)
  else .error .format

/-- The line loop of image_ihex_buffer_complete_inner over the remaining
records; at end of file the parse succeeds with the committed sections only
when `end_rec` is still set, otherwise it fails with
ERROR_IMAGE_FORMAT_ERROR (premature end of IHEX file). -/
def ihexProcess : List IhexRecord → IhexState → Except ImgError (List TextSection)
  | [], st => if st.endRec then .ok (st.committed.getD []) else .error .format
  | r :: rs, st =>
      match ihexStep st r with
      | .error e => .error e
      | .ok st1 => ihexProcess rs st1

/-- image_ihex_buffer_complete_inner at the record level: parse the file's
records from the initial state and return `image->sections`. -/
def image_ihex_buffer_complete_inner (records : List IhexRecord) :
    Except ImgError (List TextSection) :=
  ihexProcess records ihexInit

/-! ## S-record parser (image_mot_buffer_complete_inner) -/

/-- One non-blank, non-comment S-record line `SNCC<addr><data>KK` after the
`sscanf("S%1x%2x")` tokenization: `recordType` and `count` are the two header
fields and `rest` lists the remaining two-hex-digit byte values of the line
(address bytes, then data bytes, then the checksum byte). -/
structure MotRecord where
  recordType : Nat
  count : Nat
  rest : List Nat
  deriving DecidableEq, Repr

/-- Parser state of image_mot_buffer_complete_inner, as for IHEX but without
start-address fields (terminator entry addresses are not propagated). -/
structure MotState where
  fullAddress : Nat
  closed : List TextSection
  cur : TextSection
  endRec : Bool
  committed : Option (List TextSection)
  deriving DecidableEq, Repr

/-- State at entry of the outer loop of the S-record parser. -/
def motInit : MotState := ⟨0, [], freshSection, false, none⟩

/-- Shared tail of the S-record loop: add the checksum byte to the 8-bit
accumulator, which must then equal 0xFF, else ERROR_IMAGE_CHECKSUM; then clear
`end_rec` (logging the continuing-after-end-of-file warning). -/
def motFinishRecord (st : MotState) (cal ck : Nat) : Except ImgError MotState :=
  if (cal + ck % 256) % 256 ≠ 0xff then .error .checksum
  else .ok { st with endRec := false }

/-- Processing of one S-record by the body of the line loop of
image_mot_buffer_complete_inner.  `count -= 1` (skip checksum byte) and the
per-type `count -=` address-size adjustments are on a uint32.  Note that the
S1/S2/S3 nonconsecutive-location path, unlike the IHEX one (`ihexRebase`),
performs `image->num_sections++` with no IMAGE_MAX_SECTIONS bound check:
starting a 129th section writes past the 128-entry scratch array instead of
failing. -/
def motStep (st : MotState) (r : MotRecord) : Except ImgError MotState :=
  let cal0 := r.count % 256
  let count1 := (r.count + (2 ^ 32 - 1)) % 2 ^ 32
  if r.recordType = 0 then
    /- S0 starting record: consumed for the checksum only. -/
    let data := readBytes r.rest 0 count1
    motFinishRecord st (cal0 + data.sum) (r.rest.getD count1 0)
  else if 1 ≤ r.recordType ∧ r.recordType ≤ 3 then
    /- S1/S2/S3 data records with 16/24/32-bit address. -/
    let address :=
      if r.recordType = 1 then
        (r.rest.getD 0 0 % 256) * 256 + r.rest.getD 1 0 % 256
      else if r.recordType = 2 then
        (r.rest.getD 0 0 % 256) * 65536 + (r.rest.getD 1 0 % 256) * 256 +
          r.rest.getD 2 0 % 256
      else
        (r.rest.getD 0 0 % 256) * 16777216 + (r.rest.getD 1 0 % 256) * 65536 +
          (r.rest.getD 2 0 % 256) * 256 + r.rest.getD 3 0 % 256
    let cal1 :=
      if r.recordType = 1 then cal0 + (address >>> 8) % 256 + address % 256
      else if r.recordType = 2 then
        cal0 + (address >>> 16) % 256 + (address >>> 8) % 256 + address % 256
      else
        cal0 + (address >>> 24) % 256 + (address >>> 16) % 256 +
          (address >>> 8) % 256 + address % 256
    let ab := r.recordType + 1
    let count2 := (count1 + (2 ^ 32 - ab)) % 2 ^ 32
    let st1 :=
      if st.fullAddress ≠ address then
        if st.cur.size ≠ 0 then
          /- num_sections++ with no IMAGE_MAX_SECTIONS check (cf. the IHEX
          parser, which fails with format error here). -/
          { st with closed := st.closed ++ [st.cur],
                    cur := { freshSection with base_address := address },
                    fullAddress := address }
        else
          { st with cur := { st.cur with base_address := address },
                    fullAddress := address }
      else st
    let data := readBytes r.rest ab count2
    let st2 := { st1 with
      cur := { st1.cur with
               size := st1.cur.size + count2,
               bytes := st1.cur.bytes ++ data },
      fullAddress := (st1.fullAddress + count2) % 2 ^ 32 }
    motFinishRecord st2 (cal1 + data.sum) (r.rest.getD (ab + count2) 0)
  else if r.recordType = 5 ∨ r.recordType = 6 then
    /- S5/S6 record-count records: consumed for the checksum only. -/
    let data := readBytes r.rest 0 count1
    motFinishRecord st (cal0 + data.sum) (r.rest.getD count1 0)
  else if 7 ≤ r.recordType ∧ r.recordType ≤ 9 then
    /- S7/S8/S9 terminators: num_sections++, copy the scratch sections to
    image->sections, set end_rec and break — note the break skips the
    checksum verification of the terminator line itself. -/
    .ok { st with closed := st.closed ++ [st.cur],
                  committed := some (st.closed ++ [st.cur]),
                  cur := freshSection, fullAddress := 0, endRec := true }
  else .error .format

/-- The line loop of image_mot_buffer_complete_inner over the remaining
records; at end of file the parse succeeds with the committed sections only
when `end_rec` is still set, else ERROR_IMAGE_FORMAT_ERROR. -/
def motProcess : List MotRecord → MotState → Except ImgError (List TextSection)
  | [], st => if st.endRec then .ok (st.committed.getD []) else .error .format
  | r :: rs, st =>
      match motStep st r with
      | .error e => .error e
      | .ok st1 => motProcess rs st1

/-- image_mot_buffer_complete_inner at the record level: parse the file's
records from the initial state and return `image->sections`. -/
def image_mot_buffer_complete_inner (records : List MotRecord) :
    Except ImgError (List TextSection) :=
  motProcess records motInit

/-! ## C1: the 128-section cap -/

/-- Record `i` of the section-cap input: an S1 data record carrying one data
byte 0xAB at address `16*i`, with a valid checksum.  Consecutive records are
at nonconsecutive addresses, so every record after the first starts a new
section. -/
def motGapRecord (i : Nat) : MotRecord :=
  let hi := 16 * i / 256 % 256
  let lo := 16 * i % 256
  ⟨1, 4, [hi, lo, 0xAB, (255 + 256 - (4 + hi + lo + 0xAB) % 256) % 256]⟩

/-- An S-record input whose records start 129 sections: 129 S1 data records at
pairwise nonconsecutive addresses 0, 16, …, 2048, followed by an S9
terminator. -/
def motGapInput : List MotRecord :=
  ((List.range 129).map motGapRecord) ++ [⟨9, 3, [0, 0, 0xFC]⟩]

/-! ## C2: S-record checksum handling -/

/-- Address-field width in bytes of an S-record data type (2/3/4 for
S1/S2/S3), 0 for the non-data types. -/
def motAddrBytes (t : Nat) : Nat :=
  if t = 1 then 2 else if t = 2 then 3 else if t = 3 then 4 else 0

/-- A well-formed S-record line: a known record type (S4 and above-S9 values
are rejected by the parser before any checksum is read), a count field
consistent with the line (exactly `count` byte pairs follow: address bytes,
data bytes and the checksum byte), and byte values below 256. -/
def MotRecord.WellFormed (r : MotRecord) : Prop :=
  r.recordType ≤ 9 ∧ r.recordType ≠ 4 ∧ r.count < 256 ∧
    1 + motAddrBytes r.recordType ≤ r.count ∧
    r.rest.length = r.count ∧ ∀ b ∈ r.rest, b < 256

/-- S7/S8/S9 terminator records, whose processing breaks out of the line loop
before the checksum verification. -/
def MotRecord.IsTerminator (r : MotRecord) : Prop :=
  7 ≤ r.recordType ∧ r.recordType ≤ 9

/-- The claim's S-record checksum condition: the 8-bit sum over count, address
bytes, data bytes and checksum byte — i.e. the count field plus every
remaining byte of the line — equals 0xFF. -/
def MotRecord.ChecksumOk (r : MotRecord) : Prop :=
  (r.count + r.rest.sum) % 256 = 0xff

instance (r : MotRecord) : Decidable r.WellFormed := by
  unfold MotRecord.WellFormed
  exact inferInstance

instance (r : MotRecord) : Decidable r.IsTerminator := by
  unfold MotRecord.IsTerminator
  exact inferInstance

instance (r : MotRecord) : Decidable r.ChecksumOk := by
  unfold MotRecord.ChecksumOk
  exact inferInstance

/-- The arithmetic the claim describes for a type-02 record: bits 4..19 of the
old running address replaced with the 16-bit value (`segment<<4` substituted
into that bit field), all other bits kept.  Stated from the claim's words, to
be compared with the code's arithmetic. -/
def specSegmentReplaceBits (old v : Nat) : Nat :=
  (old &&& 0xfff0000f) ||| ((v &&& 0xffff) <<< 4)

/-- The 16-bit payload value of an IHEX type-02 record, as the parser reads
it from the two byte pairs after the header. -/
def ihexType2Upper (r : IhexRecord) : Nat :=
  (r.rest.getD 0 0 % 256) * 256 + r.rest.getD 1 0 % 256

/-- The checksum accumulator of a type-02 record as the parser computes it:
the three header fields, the record type and the two payload bytes. -/
def ihexType2Cal (r : IhexRecord) : Nat :=
  r.count % 256 + (r.address >>> 8) % 256 + r.address % 256 + r.recordType % 256 +
    (ihexType2Upper r >>> 8) % 256 + ihexType2Upper r % 256

/-- Concrete inputs for the C3 witness: running address 0x10, a non-empty
current section, and a type-02 record carrying V = 0. -/
def ihexC3State : IhexState := ⟨0x10, [], ⟨0x0f, 1, 0, [0xab]⟩, false, none, 0, false⟩

/-- The type-02 record of the C3 witness. -/
def ihexC3Record : IhexRecord := ⟨2, 0, 2, [0, 0, 0xfc]⟩

/-! ## ELF-32 program headers (image_elf32_read_headers, image_elf32_read_section) -/

/-- PT_LOAD program-header type tag. -/
def PT_LOAD : Nat := 1

/-- An ELF-32 program header with its fields already converted to host
endianness (the `field32(elf, …)` accessors).  The heuristic scan tests the
raw `p_paddr` bytes against zero, which agrees with a zero test on the
converted value, so it is stated on the converted field here. -/
structure Elf32Phdr where
  p_type : Nat
  p_offset : Nat
  p_vaddr : Nat
  p_paddr : Nat
  p_filesz : Nat
  p_memsz : Nat
  p_flags : Nat
  deriving DecidableEq, Repr

/-- An image section built from a loadable segment; `segment` models the
`private` pointer at the stored program header. -/
structure ElfSection where
  base_address : Nat
  size : Nat
  flags : Nat
  segment : Elf32Phdr
  deriving DecidableEq, Repr

/-- The loadable-segment test of the section-count and section-build loops:
`p_type == PT_LOAD && p_filesz != 0`. -/
def elfLoadable (p : Elf32Phdr) : Bool :=
  p.p_type == PT_LOAD && p.p_filesz != 0

/-- The in-memory-loadable test of the physical-address scan:
`p_type == PT_LOAD && p_memsz != 0`. -/
def elfLoadMem (p : Elf32Phdr) : Bool :=
  p.p_type == PT_LOAD && p.p_memsz != 0

/-- The scan of the physical-address heuristic: walk the headers in order,
breaking at the first header with nonzero `p_paddr` and counting PT_LOAD
headers with nonzero `p_memsz` along the way.  Returns whether the loop ran
off the end (`i >= segment_count`) and `nload` (whose value the C never uses
after an early break). -/
def elf32ScanPaddr : List Elf32Phdr → Bool × Nat
  | [] => (true, 0)
  | p :: ps =>
      if p.p_paddr ≠ 0 then (false, 0)
      else
        let r := elf32ScanPaddr ps
        (r.1, if elfLoadMem p then r.2 + 1 else r.2)

/-- `load_to_vaddr`: set when the scan ran off the end (all `p_paddr` zero)
and more than one header is PT_LOAD with nonzero `p_memsz`. -/
def elf32LoadToVaddr (phdrs : List Elf32Phdr) : Bool :=
  (elf32ScanPaddr phdrs).1 && decide (1 < (elf32ScanPaddr phdrs).2)

/-- The section-build loop: for each qualifying header in order, append a
section with `size = p_filesz`, base address `p_vaddr` or `p_paddr` per
`load_to_vaddr`, `flags = p_flags` and `private` at the stored header. -/
def elf32BuildSections (ltv : Bool) : List Elf32Phdr → List ElfSection
  | [] => []
  | p :: ps =>
      if elfLoadable p then
        ⟨if ltv then p.p_vaddr else p.p_paddr, p.p_filesz, p.p_flags, p⟩ ::
          elf32BuildSections ltv ps
      else elf32BuildSections ltv ps

/-- image_elf32_read_headers after the header I/O: fail with
ERROR_IMAGE_FORMAT_ERROR when there are no program headers (`e_phnum == 0`)
or no loadable segment, else expose the loadable segments as sections per the
physical-address heuristic.  (The function also sets `start_address` to
`e_entry`; entry handling is not needed by any section property.) -/
def image_elf32_read_headers (phdrs : List Elf32Phdr) :
    Except ImgError (List ElfSection) :=
  if phdrs.length = 0 then .error .format
  else if (phdrs.filter elfLoadable).length = 0 then .error .format
  else .ok (elf32BuildSections (elf32LoadToVaddr phdrs) phdrs)

/-- image_elf32_read_section: with `*size_read = 0`, when `offset` is inside
the file-backed part of the segment (`offset < p_filesz`), seek to
`p_offset + offset` and read `read_size = MIN(size, p_filesz - offset)` bytes
(the C ignores the `really_read` result of the read, so a short file still
reports `read_size`); return ERROR_OK either way. -/
def image_elf32_read_section (file : List Nat) (segment : Elf32Phdr)
    (offset size : Nat) : Except ImgError (List Nat × Nat) :=
  if offset < segment.p_filesz then
    let read_size := min size (segment.p_filesz - offset)
    let buffer := (file.drop (segment.p_offset + offset)).take read_size
    .ok (buffer, read_size)
  else .ok ([], 0)

/-! ## The image structure and the uniform read / close API -/

/-- enum image_type. -/
inductive ImageType where
  | binary
  | ihex
  | srecord
  | elf
  | memory
  | builder
  deriving DecidableEq, Repr

/-- The `private` backing reference of a section: decoded bytes for an
IHEX/S-record/builder section, the stored program header for an ELF section,
unused for binary and memory images. -/
inductive SectionPriv where
  | none
  | bytes (data : List Nat)
  | phdr (p : Elf32Phdr)
  deriving DecidableEq, Repr

/-- struct imagesection (`priv` models the `private` field, whose C name is a
Lean keyword). -/
structure Imagesection where
  base_address : Nat
  size : Nat
  flags : Nat
  priv : SectionPriv
  deriving DecidableEq, Repr

/-- The per-type state `image->type_private`.  A fileio handle is modelled by
the contents of the backing file; the ELF state keeps the class flag, file and
stored program headers (the 64-bit variant differs from the 32-bit one only in
field widths, which the Nat fields absorb); the memory state holds the page
cache and its base address. -/
inductive TypePriv where
  | binary (file : List Nat)
  | ihex (buffer : List Nat)
  | elf (is64 : Bool) (file : List Nat) (segments : List Elf32Phdr)
  | memory (cache : Option (List Nat)) (cache_address : Nat)
  | mot (buffer : List Nat)
  deriving DecidableEq, Repr

/-- struct image.  `sections = none` and `type_private = none` model NULL
pointers. -/
structure Image where
  type : ImageType
  num_sections : Nat
  sections : Option (List Imagesection)
  base_address : Nat
  base_address_set : Bool
  start_address : Nat
  start_address_set : Bool
  type_private : Option TypePriv
  deriving DecidableEq, Repr

/-- One `memcpy` length of the memory-image read loop:
`(size_in_cache > size) ? size : size_in_cache`, where `size_in_cache` is the
number of cached bytes from `address` to the end of the cache line.  The
comparison is against the total requested `size`, as in the C, not against the
remaining count. -/
def memCopyLen (cacheAddr address size : Nat) : Nat :=
  let size_in_cache := cacheAddr + IMAGE_MEMORY_CACHE_SIZE - address
  if size_in_cache > size then size else size_in_cache

/-- The bytes one loop iteration copies out of the cache line. -/
def memChunk (cache : List Nat) (cacheAddr address size : Nat) : List Nat :=
  (cache.drop (address - cacheAddr)).take (memCopyLen cacheAddr address size)

/-- Result of the memory-image read loop: the bytes copied, `*size_read` and
the final cache state, or ERROR_IMAGE_TEMPORARILY_UNAVAILABLE (after which
the cache is freed). -/
inductive MemLoopOut where
  | ok (data : List Nat) (size_read : Nat) (cache : Option (List Nat)) (cache_address : Nat)
  | unavailable (cache_address : Nat)
  deriving DecidableEq, Repr

/-- The `while ((size - *size_read) > 0)` loop of the memory branch of
image_read_section: on a cache miss ((re)allocating the cache), read one
aligned page — `address & ~(IMAGE_MEMORY_CACHE_SIZE-1)`, written here as
division and multiplication — from the target, surfacing a failed target read
as the temporarily-unavailable error with the cache freed; then copy from the
cache line and advance.  The loop guard subtracts on uint32 in the C; since
every iteration copies at least one byte, the model's Nat subtraction agrees
whenever `*size_read` lands exactly on `size`, which holds for every request
that does not overshoot `size` mid-page (the C overshoots — and overruns the
caller's buffer — only when a request larger than one cache line is served
from an unaligned start; no claim depends on that region). -/
def imageMemoryLoop (target : Nat → Option (List Nat)) (cache : Option (List Nat))
    (cacheAddr address size size_read : Nat) (acc : List Nat) : MemLoopOut :=
  if size - size_read = 0 then .ok acc size_read cache cacheAddr
  else if cache = none ∨ address < cacheAddr ∨
      cacheAddr + IMAGE_MEMORY_CACHE_SIZE ≤ address then
    match target (address / IMAGE_MEMORY_CACHE_SIZE * IMAGE_MEMORY_CACHE_SIZE) with
    | none => .unavailable cacheAddr
    | some page =>
        imageMemoryLoop target (some page)
          (address / IMAGE_MEMORY_CACHE_SIZE * IMAGE_MEMORY_CACHE_SIZE)
          (address + memCopyLen (address / IMAGE_MEMORY_CACHE_SIZE *
            IMAGE_MEMORY_CACHE_SIZE) address size)
          size
          (size_read + memCopyLen (address / IMAGE_MEMORY_CACHE_SIZE *
            IMAGE_MEMORY_CACHE_SIZE) address size)
          (acc ++ memChunk page (address / IMAGE_MEMORY_CACHE_SIZE *
            IMAGE_MEMORY_CACHE_SIZE) address size)
  else
    imageMemoryLoop target cache cacheAddr
      (address + memCopyLen cacheAddr address size) size
      (size_read + memCopyLen cacheAddr address size)
      (acc ++ memChunk (cache.getD []) cacheAddr address size)
  termination_by size - size_read
  decreasing_by
    · simp only [memCopyLen, IMAGE_MEMORY_CACHE_SIZE]
      split
      · omega
      · omega
    · rename_i hno hin
      rw [not_or, not_or] at hin
      obtain ⟨-, h2, h3⟩ := hin
      simp only [not_lt, not_le] at h2 h3
      simp only [memCopyLen, IMAGE_MEMORY_CACHE_SIZE]
      split
      · omega
      · simp only [IMAGE_MEMORY_CACHE_SIZE] at h3
        omega

/-- Outcome of image_read_section: the bytes placed in the caller's buffer
and `*size_read`, or an error code. -/
inductive ReadOutcome where
  | ok (data : List Nat) (size_read : Nat)
  | err (e : ImgError)
  deriving DecidableEq, Repr

/-- The `sections[section]` entry read by image_read_section; an out-of-range
index (unspecified memory in the C) is modelled as a zeroed entry. -/
def noSection : Imagesection := ⟨0, 0, 0, .none⟩

/-- image_read_section: the bounds check, then the per-type dispatch.
`target` is the target_read_buffer oracle used by memory images (aligned page
address ↦ page bytes, or failure).  A `none` result models an execution that
dereferences a NULL pointer (NULL `type_private`, NULL `sections`, or a
type-confused `private` payload) — undefined behavior in the C. -/
def image_read_section (img : Image) (target : Nat → Option (List Nat))
    (sect offset size : Nat) : Option (ReadOutcome × Image) :=
  let sec := (img.sections.getD []).getD sect noSection
  if offset + size > sec.size then some (.err .badArgs, img)
  else if img.type = .binary then
    if sect ≠ 0 then some (.err .badArgs, img)
    else match img.type_private with
      | some (.binary file) =>
          some (.ok ((file.drop offset).take size) (min size (file.length - offset)), img)
      | _ => none
  else if img.type = .ihex then
    match sec.priv with
    | .bytes data => some (.ok ((data.drop offset).take size) size, img)
    | _ => none
  else if img.type = .elf then
    match img.type_private, sec.priv with
    | some (.elf _ file _), .phdr p =>
        match image_elf32_read_section file p offset size with
        | .ok (data, n) => some (.ok data n, img)
        | .error e => some (.err e, img)
    | _, _ => none
  else if img.type = .memory then
    match img.type_private with
    | some (.memory cache cacheAddr) =>
        match imageMemoryLoop target cache cacheAddr (sec.base_address + offset) size 0 [] with
        | .ok data n cache2 cacheAddr2 =>
            some (.ok data n, { img with type_private := some (.memory cache2 cacheAddr2) })
        | .unavailable cacheAddr2 =>
            some (.err .tempUnavailable,
              { img with type_private := some (.memory none cacheAddr2) })
    | _ => none
  else if img.type = .srecord then
    match sec.priv with
    | .bytes data => some (.ok ((data.drop offset).take size) size, img)
    | _ => none
  else
    match sec.priv with
    | .bytes data => some (.ok ((data.drop offset).take size) size, img)
    | _ => none

/-- The memory image of the C8 counterexample: the single synthetic section of
size 0xffffffff at base 0, with an empty page cache. -/
def memImg : Image :=
  ⟨.memory, 1, some [⟨0, 0xffffffff, 0, .none⟩], 0, false, 0, false,
    some (.memory Option.none 0)⟩

/-- A target whose page at address 0 reads as 0xAA followed by zeros. -/
def memTarget : Nat → Option (List Nat) :=
  fun _ => some (0xaa :: List.replicate 511 0)

/-- The memory image after the C8 counterexample read: same image, page cache
filled with the page at address 0. -/
def memImgAfter : Image :=
  { memImg with
    type_private := some (.memory (some (0xaa :: List.replicate 511 0)) 0) }

/-- The common tail of image_close: `free(image->type_private);
image->type_private = NULL; free(image->sections); image->sections = NULL`
(`num_sections` is not reset). -/
def closedOf (img : Image) : Image :=
  { img with type_private := none, sections := none }

/-- image_close: per-type release of the owned state, then the common tail.
`none` models a close that dereferences a NULL pointer: for the file-backed
and memory types the C reads through `image->type_private` (NULL after a
first close) to reach the fileio handle, decode buffers, ELF arrays or page
cache; for a builder with `num_sections > 0` it reads `sections[i].private`
through a NULL (or shorter-than-num_sections) sections pointer.  A
`type_private` payload that does not match the image type (type confusion in
the C) is likewise not a defined execution. -/
def image_close (img : Image) : Option Image :=
  match img.type, img.type_private with
  | .binary, some (.binary _) => some (closedOf img)
  | .ihex, some (.ihex _) => some (closedOf img)
  | .elf, some (.elf _ _ _) => some (closedOf img)
  | .memory, some (.memory _ _) => some (closedOf img)
  | .srecord, some (.mot _) => some (closedOf img)
  | .builder, _ =>
      match img.sections with
      | some l => if img.num_sections ≤ l.length then some (closedOf img) else none
      | none => if img.num_sections = 0 then some (closedOf img) else none
  | _, _ => none

/-- An open binary image backing a 3-byte file. -/
def binImg : Image :=
  ⟨.binary, 1, some [⟨0, 3, 0, .none⟩], 0, false, 0, false, some (.binary [1, 2, 3])⟩

/-! ## Theorems -/

/-- Bounded-length version of `checksumLoop_no_shutdown`, proved by induction
on the length bound `n`. -/
theorem checksumLoop_no_shutdown_aux (n : Nat) :
    ∀ (bytes : List Nat), bytes.length ≤ n → ∀ (crc k : Nat),
      checksumLoop (fun _ => false) bytes crc k = .ok (bytes.foldl crcUpdate crc) := by
  induction n with
  | zero =>
      intro bytes hlen crc k
      have hb : bytes = [] := List.eq_nil_of_length_eq_zero (Nat.le_zero.mp hlen)
      subst hb
      rw [checksumLoop]
      simp
  | succ n ih =>
      intro bytes hlen crc k
      rw [checksumLoop]
      by_cases hb : bytes.isEmpty
      · have : bytes = [] := List.isEmpty_iff.mp hb
        subst this; simp
      · simp only [hb, if_false, Bool.false_eq_true]
        have hlen0 : bytes.length ≠ 0 := by
          simpa [List.isEmpty_iff_length_eq_zero] using hb
        have hdrop : (bytes.drop (min bytes.length 32768)).length ≤ n := by
          simp only [List.length_drop]
          omega
        rw [ih _ hdrop]
        have hsplit := List.take_append_drop (min bytes.length 32768) bytes
        conv_rhs => rw [← hsplit, List.foldl_append]

/-- When no shutdown is ever pending, the chunked loop computes the plain
left fold of the per-byte update over the buffer. -/
theorem checksumLoop_no_shutdown (bytes : List Nat) (crc k : Nat) :
    checksumLoop (fun _ => false) bytes crc k = .ok (bytes.foldl crcUpdate crc) :=
  checksumLoop_no_shutdown_aux bytes.length bytes (Nat.le_refl _) crc k

/-- C5: image_calculate_checksum computes the GDB CRC-32 over the byte span
(initial value 0xFFFFFFFF, no final XOR, MSB-first table update
`crc = (crc << 8) ^ table[((crc >> 24) ^ byte) & 0xFF]` with the 0x04C11DB7
table), i.e. the fold of `crcUpdate` over the buffer; in particular on the
9-byte input "123456789" it returns success with checksum 0x0376E6E7. -/
theorem image_calculate_checksum_is_gdb_crc32 :
    (∀ buffer : List Nat, image_calculate_checksum buffer (fun _ => false) =
        .ok (buffer.foldl crcUpdate 0xffffffff))
    ∧ image_calculate_checksum [0x31, 0x32, 0x33, 0x34, 0x35, 0x36, 0x37, 0x38, 0x39]
        (fun _ => false) = .ok 0x0376e6e7 := by
  constructor
  · intro buffer
    exact checksumLoop_no_shutdown buffer 0xffffffff 0
  · rw [image_calculate_checksum, checksumLoop_no_shutdown]
    decide

set_option maxRecDepth 4000 in
/-- C1 (code bug): the claim — both text parsers fail with *format error* on a
file whose records would start a 129th section — is the clear intent: the
scratch section array both parsers allocate has exactly IMAGE_MAX_SECTIONS =
128 entries, and the IHEX parser checks the bound on every `num_sections++`.
But the S-record parser's split path omits the check: on `motGapInput` it
accepts the file and returns 129 sections (in the C, after writing past the
128-entry scratch array), instead of failing with format error. -/
theorem mot_starts_129th_section_without_format_error :
    (image_mot_buffer_complete_inner motGapInput).toOption.map List.length = some 129
    ∧ image_mot_buffer_complete_inner motGapInput ≠ .error .format := by
  constructor <;> decide

/-- `getD` composed with the parser's `%256` truncation is plain `getD` on a
list of byte values. -/
theorem getD_mod_256 (l : List Nat) (i : Nat) (hb : ∀ b ∈ l, b < 256) :
    l.getD i 0 % 256 = l.getD i 0 := by
  by_cases h : i < l.length
  · rw [List.getD_eq_getElem l 0 h]
    exact Nat.mod_eq_of_lt (hb _ (l.getElem_mem h))
  · rw [List.getD_eq_default l 0 (Nat.le_of_not_lt h)]

/-- With enough bytes on the line, the `%2x` reads at offsets `s … s+n-1` are
exactly the corresponding slice of the line. -/
theorem readBytes_eq_slice (l : List Nat) (s n : Nat) (h : s + n ≤ l.length)
    (hb : ∀ b ∈ l, b < 256) : readBytes l s n = (l.drop s).take n := by
  apply List.ext_getElem
  · simp only [readBytes, List.length_map, List.length_range, List.length_take,
      List.length_drop]
    omega
  · intro i h1 h2
    simp only [readBytes, List.length_map, List.length_range] at h1
    have hsi : s + i < l.length := by omega
    simp only [readBytes, List.getElem_map, List.getElem_range, List.getElem_take,
      List.getElem_drop]
    rw [List.getD_eq_getElem l 0 hsi]
    exact Nat.mod_eq_of_lt (hb _ (l.getElem_mem hsi))

/-- Peeling one element off a drop: the sum of the tail from `i` is the `i`-th
element plus the sum of the tail from `i+1`. -/
theorem sum_drop_succ (l : List Nat) (i : Nat) (h : i < l.length) :
    (l.drop i).sum = l.getD i 0 + (l.drop (i + 1)).sum := by
  rw [List.drop_eq_getElem_cons h, List.sum_cons, List.getD_eq_getElem l 0 h]

/-- The sum of the tail from the last index is the last element. -/
theorem sum_drop_last (l : List Nat) (i : Nat) (h : i + 1 = l.length) :
    (l.drop i).sum = l.getD i 0 := by
  rw [sum_drop_succ l i (by omega)]
  rw [List.drop_eq_nil_of_le (by omega)]
  simp

/-- Splitting the sum of a tail at a slice boundary. -/
theorem sum_drop_split (l : List Nat) (a b : Nat) :
    (l.drop a).sum = ((l.drop a).take b).sum + (l.drop (a + b)).sum := by
  rw [← List.sum_take_add_sum_drop (l.drop a) b, List.drop_drop]

/-- C10: on a byte span of length 0 the `while (nbytes > 0)` loop body never
runs, so image_calculate_checksum returns success with the initial CRC value
0xFFFFFFFF without ever polling the shutdown flag: the result is `ok` for every
shutdown oracle, hence an empty-span checksum can never return *interrupted*. -/
theorem image_calculate_checksum_empty_never_interrupted :
    ∀ sd : Nat → Bool, image_calculate_checksum [] sd = .ok 0xffffffff := by
  intro sd
  rw [image_calculate_checksum, checksumLoop]
  simp

theorem getD_lt_256 (l : List Nat) (i : Nat) (h : i < l.length) (hb : ∀ b ∈ l, b < 256) :
    l.getD i 0 < 256 := by
  rw [List.getD_eq_getElem l 0 h]
  exact hb _ (l.getElem_mem h)

theorem motStep_reaches_check (st : MotState) (r : MotRecord)
    (hwf : r.WellFormed) (hnt : ¬r.IsTerminator) :
    ∃ (st' : MotState) (cal ck : Nat),
      motStep st r = motFinishRecord st' cal ck ∧
      (cal + ck % 256) % 256 = (r.count + r.rest.sum) % 256 := by
  obtain ⟨t, c, rest⟩ := r
  obtain ⟨ht9, ht4, hc, hcab, hlen, hb⟩ := hwf
  simp only [MotRecord.IsTerminator, not_and, not_le] at hnt
  simp only [motAddrBytes] at hcab
  dsimp only at ht9 ht4 hc hcab hlen hb hnt ⊢
  interval_cases t
  · -- t = 0
    norm_num at hcab
    simp only [motStep, reduceIte]
    refine ⟨_, _, _, rfl, ?_⟩
    have hc1 : (c + (2 ^ 32 - 1)) % 2 ^ 32 = c - 1 := by omega
    rw [hc1, readBytes_eq_slice rest 0 (c - 1) (by omega) hb,
        getD_mod_256 rest _ hb, List.drop_zero]
    have hs := sum_drop_split rest 0 (c - 1)
    have hl := sum_drop_last rest (c - 1) (by omega)
    rw [List.drop_zero] at hs
    simp only [Nat.zero_add] at hs
    omega
  · -- t = 1
    norm_num at hcab
    simp only [motStep, reduceIte]
    refine ⟨_, _, _, rfl, ?_⟩
    have hg0 : rest.getD 0 0 < 256 := getD_lt_256 rest 0 (by omega) hb
    have hg1 : rest.getD 1 0 < 256 := getD_lt_256 rest 1 (by omega) hb
    have hT : ((c + (2 ^ 32 - 1)) % 2 ^ 32 + (2 ^ 32 - (1 + 1))) % 2 ^ 32 = c - 3 := by
      omega
    have hsh : (rest.getD 0 0 % 256 * 256 + rest.getD 1 0 % 256) >>> 8 = rest.getD 0 0 := by
      rw [Nat.shiftRight_eq_div_pow]
      omega
    have hds : (readBytes rest (1 + 1)
        (((c + (2 ^ 32 - 1)) % 2 ^ 32 + (2 ^ 32 - (1 + 1))) % 2 ^ 32)).sum
        = ((rest.drop (1 + 1)).take (c - 3)).sum := by
      rw [hT, readBytes_eq_slice rest (1 + 1) (c - 3) (by omega) hb]
    have hck : rest.getD ((1 + 1) + (((c + (2 ^ 32 - 1)) % 2 ^ 32 + (2 ^ 32 - (1 + 1))) % 2 ^ 32)) 0
        = rest.getD (c - 1) 0 := by
      have : (1 + 1) + (((c + (2 ^ 32 - 1)) % 2 ^ 32 + (2 ^ 32 - (1 + 1))) % 2 ^ 32) = c - 1 := by
        omega
      rw [this]
    have hckb : rest.getD (c - 1) 0 < 256 := getD_lt_256 rest (c - 1) (by omega) hb
    have h0 := sum_drop_succ rest 0 (by omega)
    have h1 := sum_drop_succ rest 1 (by omega)
    have h2 := sum_drop_split rest (1 + 1) (c - 3)
    have h3' : (1 + 1) + (c - 3) = c - 1 := by omega
    rw [h3'] at h2
    have h3 := sum_drop_last rest (c - 1) (by omega)
    rw [List.drop_zero] at h0
    have hd1 : rest.drop (0 + 1) = rest.drop 1 := by norm_num
    have hd2 : rest.drop (1 + 1) = rest.drop 2 := by norm_num
    rw [hd1] at h0
    rw [hd2] at h1 h2 hds
    omega
  · -- t = 2
    norm_num at hcab
    simp only [motStep, if_neg (show ¬((2 : Nat) = 1) from by norm_num), reduceIte]
    refine ⟨_, _, _, rfl, ?_⟩
    have hg0 : rest.getD 0 0 < 256 := getD_lt_256 rest 0 (by omega) hb
    have hg1 : rest.getD 1 0 < 256 := getD_lt_256 rest 1 (by omega) hb
    have hg2 : rest.getD 2 0 < 256 := getD_lt_256 rest 2 (by omega) hb
    have hT : ((c + (2 ^ 32 - 1)) % 2 ^ 32 + (2 ^ 32 - (2 + 1))) % 2 ^ 32 = c - 4 := by
      omega
    have hsh16 : (rest.getD 0 0 % 256 * 65536 + rest.getD 1 0 % 256 * 256 + rest.getD 2 0 % 256) >>> 16
        = rest.getD 0 0 := by
      rw [Nat.shiftRight_eq_div_pow]
      omega
    have hsh8 : (rest.getD 0 0 % 256 * 65536 + rest.getD 1 0 % 256 * 256 + rest.getD 2 0 % 256) >>> 8
        = rest.getD 0 0 * 256 + rest.getD 1 0 := by
      rw [Nat.shiftRight_eq_div_pow]
      omega
    have hds : (readBytes rest (2 + 1)
        (((c + (2 ^ 32 - 1)) % 2 ^ 32 + (2 ^ 32 - (2 + 1))) % 2 ^ 32)).sum
        = ((rest.drop (2 + 1)).take (c - 4)).sum := by
      rw [hT, readBytes_eq_slice rest (2 + 1) (c - 4) (by omega) hb]
    have hck : rest.getD ((2 + 1) + (((c + (2 ^ 32 - 1)) % 2 ^ 32 + (2 ^ 32 - (2 + 1))) % 2 ^ 32)) 0
        = rest.getD (c - 1) 0 := by
      have : (2 + 1) + (((c + (2 ^ 32 - 1)) % 2 ^ 32 + (2 ^ 32 - (2 + 1))) % 2 ^ 32) = c - 1 := by
        omega
      rw [this]
    have hckb : rest.getD (c - 1) 0 < 256 := getD_lt_256 rest (c - 1) (by omega) hb
    have h0 := sum_drop_succ rest 0 (by omega)
    have h1 := sum_drop_succ rest 1 (by omega)
    have h1b := sum_drop_succ rest 2 (by omega)
    have h2 := sum_drop_split rest (2 + 1) (c - 4)
    have h3' : (2 + 1) + (c - 4) = c - 1 := by omega
    rw [h3'] at h2
    have h3 := sum_drop_last rest (c - 1) (by omega)
    rw [List.drop_zero] at h0
    have hd1 : rest.drop (0 + 1) = rest.drop 1 := by norm_num
    have hd2 : rest.drop (1 + 1) = rest.drop 2 := by norm_num
    have hd3 : rest.drop (2 + 1) = rest.drop 3 := by norm_num
    rw [hd1] at h0
    rw [hd2] at h1
    rw [hd3] at h1b h2 hds
    omega
  · -- t = 3
    norm_num at hcab
    simp only [motStep, if_neg (show ¬((3 : Nat) = 1) from by norm_num),
      if_neg (show ¬((3 : Nat) = 2) from by norm_num), reduceIte]
    refine ⟨_, _, _, rfl, ?_⟩
    have hg0 : rest.getD 0 0 < 256 := getD_lt_256 rest 0 (by omega) hb
    have hg1 : rest.getD 1 0 < 256 := getD_lt_256 rest 1 (by omega) hb
    have hg2 : rest.getD 2 0 < 256 := getD_lt_256 rest 2 (by omega) hb
    have hg3 : rest.getD 3 0 < 256 := getD_lt_256 rest 3 (by omega) hb
    have hT : ((c + (2 ^ 32 - 1)) % 2 ^ 32 + (2 ^ 32 - (3 + 1))) % 2 ^ 32 = c - 5 := by
      omega
    have hsh24 : (rest.getD 0 0 % 256 * 16777216 + rest.getD 1 0 % 256 * 65536 +
        rest.getD 2 0 % 256 * 256 + rest.getD 3 0 % 256) >>> 24 = rest.getD 0 0 := by
      rw [Nat.shiftRight_eq_div_pow]
      omega
    have hsh16 : (rest.getD 0 0 % 256 * 16777216 + rest.getD 1 0 % 256 * 65536 +
        rest.getD 2 0 % 256 * 256 + rest.getD 3 0 % 256) >>> 16
        = rest.getD 0 0 * 256 + rest.getD 1 0 := by
      rw [Nat.shiftRight_eq_div_pow]
      omega
    have hsh8 : (rest.getD 0 0 % 256 * 16777216 + rest.getD 1 0 % 256 * 65536 +
        rest.getD 2 0 % 256 * 256 + rest.getD 3 0 % 256) >>> 8
        = rest.getD 0 0 * 65536 + rest.getD 1 0 * 256 + rest.getD 2 0 := by
      rw [Nat.shiftRight_eq_div_pow]
      omega
    have hds : (readBytes rest (3 + 1)
        (((c + (2 ^ 32 - 1)) % 2 ^ 32 + (2 ^ 32 - (3 + 1))) % 2 ^ 32)).sum
        = ((rest.drop (3 + 1)).take (c - 5)).sum := by
      rw [hT, readBytes_eq_slice rest (3 + 1) (c - 5) (by omega) hb]
    have hck : rest.getD ((3 + 1) + (((c + (2 ^ 32 - 1)) % 2 ^ 32 + (2 ^ 32 - (3 + 1))) % 2 ^ 32)) 0
        = rest.getD (c - 1) 0 := by
      have : (3 + 1) + (((c + (2 ^ 32 - 1)) % 2 ^ 32 + (2 ^ 32 - (3 + 1))) % 2 ^ 32) = c - 1 := by
        omega
      rw [this]
    have hckb : rest.getD (c - 1) 0 < 256 := getD_lt_256 rest (c - 1) (by omega) hb
    have h0 := sum_drop_succ rest 0 (by omega)
    have h1 := sum_drop_succ rest 1 (by omega)
    have h1b := sum_drop_succ rest 2 (by omega)
    have h1c := sum_drop_succ rest 3 (by omega)
    have h2 := sum_drop_split rest (3 + 1) (c - 5)
    have h3' : (3 + 1) + (c - 5) = c - 1 := by omega
    rw [h3'] at h2
    have h3 := sum_drop_last rest (c - 1) (by omega)
    rw [List.drop_zero] at h0
    have hd1 : rest.drop (0 + 1) = rest.drop 1 := by norm_num
    have hd2 : rest.drop (1 + 1) = rest.drop 2 := by norm_num
    have hd3 : rest.drop (2 + 1) = rest.drop 3 := by norm_num
    have hd4 : rest.drop (3 + 1) = rest.drop 4 := by norm_num
    rw [hd1] at h0
    rw [hd2] at h1
    rw [hd3] at h1b
    rw [hd4] at h1c h2 hds
    omega
  · -- t = 4: rejected before any checksum is read
    exact absurd rfl ht4
  · -- t = 5
    norm_num at hcab
    simp only [motStep, reduceIte]
    refine ⟨_, _, _, rfl, ?_⟩
    have hc1 : (c + (2 ^ 32 - 1)) % 2 ^ 32 = c - 1 := by omega
    rw [hc1, readBytes_eq_slice rest 0 (c - 1) (by omega) hb,
        getD_mod_256 rest _ hb, List.drop_zero]
    have hs := sum_drop_split rest 0 (c - 1)
    have hl := sum_drop_last rest (c - 1) (by omega)
    rw [List.drop_zero] at hs
    simp only [Nat.zero_add] at hs
    omega
  · -- t = 6
    norm_num at hcab
    simp only [motStep, reduceIte]
    refine ⟨_, _, _, rfl, ?_⟩
    have hc1 : (c + (2 ^ 32 - 1)) % 2 ^ 32 = c - 1 := by omega
    rw [hc1, readBytes_eq_slice rest 0 (c - 1) (by omega) hb,
        getD_mod_256 rest _ hb, List.drop_zero]
    have hs := sum_drop_split rest 0 (c - 1)
    have hl := sum_drop_last rest (c - 1) (by omega)
    rw [List.drop_zero] at hs
    simp only [Nat.zero_add] at hs
    omega
  · -- t = 7: terminator, excluded
    exact absurd (hnt (by omega)) (by omega)
  · -- t = 8: terminator, excluded
    exact absurd (hnt (by omega)) (by omega)
  · -- t = 9: terminator, excluded
    exact absurd (hnt (by omega)) (by omega)

/-- On a well-formed non-terminator record with a bad checksum, the S-record
line loop aborts with ERROR_IMAGE_CHECKSUM, whatever the parser state. -/
theorem motStep_checksum_bad (st : MotState) (r : MotRecord)
    (hwf : r.WellFormed) (hnt : ¬r.IsTerminator) (hck : ¬r.ChecksumOk) :
    motStep st r = .error .checksum := by
  obtain ⟨st', cal, ck, heq, hsum⟩ := motStep_reaches_check st r hwf hnt
  rw [heq, motFinishRecord, if_pos (by rw [hsum]; exact hck)]

/-- On a well-formed record that is a terminator or has a good checksum, the
S-record line loop proceeds. -/
theorem motStep_checksum_good (st : MotState) (r : MotRecord)
    (hwf : r.WellFormed) (h : r.IsTerminator ∨ r.ChecksumOk) :
    ∃ st', motStep st r = .ok st' := by
  by_cases hterm : r.IsTerminator
  · obtain ⟨t, c, rest⟩ := r
    obtain ⟨h7, h9⟩ := hterm
    dsimp only at h7 h9
    refine ⟨{ st with
              closed := st.closed ++ [st.cur],
              committed := some (st.closed ++ [st.cur]),
              cur := freshSection, fullAddress := 0, endRec := true }, ?_⟩
    simp only [motStep]
    rw [if_neg (show ¬(t = 0) from by omega),
        if_neg (show ¬(1 ≤ t ∧ t ≤ 3) from by omega),
        if_neg (show ¬(t = 5 ∨ t = 6) from by omega),
        if_pos (show 7 ≤ t ∧ t ≤ 9 from by omega)]
  · have hck : r.ChecksumOk := h.resolve_left hterm
    obtain ⟨st', cal, ck, heq, hsum⟩ := motStep_reaches_check st r hwf hterm
    refine ⟨{ st' with endRec := false }, ?_⟩
    rw [heq, motFinishRecord,
        if_neg (show ¬((cal + ck % 256) % 256 ≠ 0xff) from by
          rw [hsum]; exact not_not_intro hck)]

/-- A record list containing a bad-checksum non-terminator record among
well-formed records makes the line loop fail with ERROR_IMAGE_CHECKSUM from
any state. -/
theorem motProcess_checksum_abort (rs : List MotRecord) :
    ∀ st : MotState, (∀ r ∈ rs, r.WellFormed) →
      (∃ r ∈ rs, ¬r.IsTerminator ∧ ¬r.ChecksumOk) →
      motProcess rs st = .error .checksum := by
  induction rs with
  | nil =>
      intro st _ h
      simp at h
  | cons r rs ih =>
      intro st hwf hbad
      by_cases hr : ¬r.IsTerminator ∧ ¬r.ChecksumOk
      · have hstep := motStep_checksum_bad st r (hwf r (by simp)) hr.1 hr.2
        simp [motProcess, hstep]
      · have hgood : r.IsTerminator ∨ r.ChecksumOk := by tauto
        obtain ⟨st1, hst1⟩ := motStep_checksum_good st r (hwf r (by simp)) hgood
        have hred : motProcess (r :: rs) st = motProcess rs st1 := by
          simp [motProcess, hst1]
        rw [hred]
        apply ih st1
        · intro x hx
          exact hwf x (by simp [hx])
        · obtain ⟨x, hx, hxp⟩ := hbad
          rcases List.mem_cons.mp hx with h1 | h2
          · subst h1; exact absurd hxp hr
          · exact ⟨x, h2, hxp⟩

/-- C2 (amended): the S-record loader aborts with ERROR_IMAGE_CHECKSUM — the
*checksum error*, not the claimed *format error* — on every input of
well-formed records that contains a non-terminator record whose 8-bit sum over
count, address bytes, data bytes and checksum byte is not 0xFF; terminator
records (S7/S8/S9) are excluded because the code breaks out of the loop before
their checksum is verified. -/
theorem mot_bad_checksum_fails_with_checksum_error (rs : List MotRecord)
    (hwf : ∀ r ∈ rs, r.WellFormed)
    (hbad : ∃ r ∈ rs, ¬r.IsTerminator ∧ ¬r.ChecksumOk) :
    image_mot_buffer_complete_inner rs = .error .checksum :=
  motProcess_checksum_abort rs motInit hwf hbad

/-- Witness: a concrete one-record input (an S1 record whose checksum byte is
off by one) satisfying the hypotheses, on which the loader fails with the
checksum error. -/
theorem mot_bad_checksum_fails_witness :
    (∀ r ∈ [(⟨1, 4, [0, 0, 0xab, 0x51]⟩ : MotRecord)], r.WellFormed)
    ∧ (∃ r ∈ [(⟨1, 4, [0, 0, 0xab, 0x51]⟩ : MotRecord)],
        ¬r.IsTerminator ∧ ¬r.ChecksumOk)
    ∧ image_mot_buffer_complete_inner [⟨1, 4, [0, 0, 0xab, 0x51]⟩] = .error .checksum :=
  ⟨by decide, by decide,
    mot_bad_checksum_fails_with_checksum_error _ (by decide) (by decide)⟩

/-- C2 counterexample: on an S-record input containing a record whose 8-bit
checksum sum is not 0xFF (one S1 record, checksum byte off by one), the loader
fails with ERROR_IMAGE_CHECKSUM, which is a different error code than the
ERROR_IMAGE_FORMAT_ERROR the claim names. -/
theorem mot_bad_checksum_not_format_error :
    image_mot_buffer_complete_inner [⟨1, 4, [0, 0, 0xab, 0x51]⟩] = .error .checksum
    ∧ ImgError.checksum ≠ ImgError.format := by
  constructor <;> decide

/-- C3 (amended): processing a type-02 record carrying value V when
`full_address >> 4 != V` sets the running address and the current section's
base address to `(full_address & 0xffff) | (V << 4)` — the bitwise OR of the
low 16 bits of the old running address with `V << 4`, discarding bits 16..31 —
and splits the current section only if it is non-empty. -/
theorem ihex_type02_rebase (st : IhexState) (r : IhexRecord)
    (ht : r.recordType = 2)
    (hdiff : st.fullAddress >>> 4 ≠ ihexType2Upper r)
    (hlim : st.cur.size ≠ 0 → st.closed.length + 1 < IMAGE_MAX_SECTIONS)
    (hck : r.rest.getD 2 0 % 256 = (256 - ihexType2Cal r % 256) % 256) :
    ihexStep st r = .ok
      { st with
        fullAddress := (st.fullAddress &&& 0xffff) ||| (ihexType2Upper r <<< 4),
        closed := if st.cur.size = 0 then st.closed else st.closed ++ [st.cur],
        cur := if st.cur.size = 0 then
                 { st.cur with base_address :=
                     (st.fullAddress &&& 0xffff) ||| (ihexType2Upper r <<< 4) }
               else { freshSection with base_address :=
                       (st.fullAddress &&& 0xffff) ||| (ihexType2Upper r <<< 4) },
        endRec := false } := by
  simp only [ihexType2Upper] at hdiff
  simp only [ihexType2Cal, ihexType2Upper, ht] at hck
  simp only [ihexStep, ihexType2Upper, ht,
    if_neg (show ¬((2 : Nat) = 0) from by norm_num),
    if_neg (show ¬((2 : Nat) = 1) from by norm_num), reduceIte]
  rw [if_pos hdiff]
  by_cases hsz : st.cur.size = 0
  · rw [ihexRebase, if_neg (by omega)]
    simp only [ihexFinishRecord, if_neg (not_not_intro hck)]
    simp [hsz]
  · rw [ihexRebase, if_pos hsz, if_neg (by omega)]
    simp only [ihexFinishRecord, if_neg (not_not_intro hck)]
    simp [hsz]

/-- C3 counterexample: a four-record IHEX file.  After one data byte at
address 0x000F the running address is 0x10; the type-02 record carries V = 0
and fires (0x10 >> 4 = 1 ≠ 0) with a non-empty current section.  The claim
predicts the new base `specSegmentReplaceBits 0x10 0 = 0` (bits 4..19
replaced by V); the code computes `(0x10 & 0xffff) | (0 << 4) = 0x10`, and the
parse indeed produces section 1 with base address 0x10 ≠ 0. -/
theorem ihex_type02_replace_bits_counterexample :
    image_ihex_buffer_complete_inner
      [⟨1, 0x0f, 0, [0xab, 0x45]⟩, ⟨2, 0, 2, [0, 0, 0xfc]⟩,
       ⟨1, 0x10, 0, [0xcd, 0x22]⟩, ⟨0, 0, 1, [0xff]⟩]
      = .ok [⟨0x0f, 1, 0, [0xab]⟩, ⟨0x10, 1, 0, [0xcd]⟩]
    ∧ specSegmentReplaceBits 0x10 0 = 0 ∧ (0x10 : Nat) ≠ 0 :=
  ⟨by decide, by decide, by decide⟩

/-- Witness: the amended type-02 rebase theorem applied at the concrete state
and record, all hypotheses discharged by evaluation. -/
theorem ihex_type02_rebase_witness :
    (ihexC3Record.recordType = 2
      ∧ ihexC3State.fullAddress >>> 4 ≠ ihexType2Upper ihexC3Record
      ∧ (ihexC3State.cur.size ≠ 0 → ihexC3State.closed.length + 1 < IMAGE_MAX_SECTIONS)
      ∧ ihexC3Record.rest.getD 2 0 % 256 = (256 - ihexType2Cal ihexC3Record % 256) % 256)
    ∧ ihexStep ihexC3State ihexC3Record = .ok
      { ihexC3State with
        fullAddress := (ihexC3State.fullAddress &&& 0xffff) |||
          (ihexType2Upper ihexC3Record <<< 4),
        closed := if ihexC3State.cur.size = 0 then ihexC3State.closed
                  else ihexC3State.closed ++ [ihexC3State.cur],
        cur := if ihexC3State.cur.size = 0 then
                 { ihexC3State.cur with base_address :=
                     (ihexC3State.fullAddress &&& 0xffff) |||
                       (ihexType2Upper ihexC3Record <<< 4) }
               else { freshSection with base_address :=
                       (ihexC3State.fullAddress &&& 0xffff) |||
                         (ihexType2Upper ihexC3Record <<< 4) },
        endRec := false } :=
  ⟨⟨rfl, by decide, by decide, by decide⟩,
    ihex_type02_rebase ihexC3State ihexC3Record rfl (by decide) (by decide) (by decide)⟩

/-- The scan runs off the end exactly when every header has `p_paddr = 0`. -/
theorem elf32ScanPaddr_fst (phdrs : List Elf32Phdr) :
    (elf32ScanPaddr phdrs).1 = true ↔ ∀ p ∈ phdrs, p.p_paddr = 0 := by
  induction phdrs with
  | nil => simp [elf32ScanPaddr]
  | cons p ps ih =>
      by_cases hp : p.p_paddr = 0
      · simp [elf32ScanPaddr, hp, ih]
      · simp [elf32ScanPaddr, hp]

/-- When every header has `p_paddr = 0`, `nload` counts the PT_LOAD headers
with nonzero `p_memsz`. -/
theorem elf32ScanPaddr_snd (phdrs : List Elf32Phdr)
    (h : ∀ p ∈ phdrs, p.p_paddr = 0) :
    (elf32ScanPaddr phdrs).2 = (phdrs.filter elfLoadMem).length := by
  induction phdrs with
  | nil => simp [elf32ScanPaddr]
  | cons p ps ih =>
      have hp : p.p_paddr = 0 := h p (by simp)
      have hps : ∀ q ∈ ps, q.p_paddr = 0 := fun q hq => h q (by simp [hq])
      by_cases hl : elfLoadMem p
      · simp [elf32ScanPaddr, hp, hl, ih hps, List.filter]
      · simp [elf32ScanPaddr, hp, hl, ih hps, List.filter]

/-- The section-build loop is the map of the per-header section over the
qualifying headers. -/
theorem elf32BuildSections_eq_map (ltv : Bool) (phdrs : List Elf32Phdr) :
    elf32BuildSections ltv phdrs = (phdrs.filter elfLoadable).map
      (fun p => ⟨if ltv then p.p_vaddr else p.p_paddr, p.p_filesz, p.p_flags, p⟩) := by
  induction phdrs with
  | nil => simp [elf32BuildSections]
  | cons p ps ih =>
      by_cases hl : elfLoadable p
      · simp [elf32BuildSections, hl, ih, List.filter]
      · simp [elf32BuildSections, hl, ih, List.filter]

/-- C4: for every ELF-32 image in which every program header has
`p_paddr = 0` and more than one program header has `p_type == PT_LOAD` and
`p_memsz != 0`, each exposed section's base address is its segment's
`p_vaddr`; in every other ELF-32 image it is its segment's `p_paddr`. -/
theorem elf32_paddr_heuristic (phdrs : List Elf32Phdr) (secs : List ElfSection)
    (h : image_elf32_read_headers phdrs = .ok secs) :
    (((∀ p ∈ phdrs, p.p_paddr = 0) ∧ 1 < (phdrs.filter elfLoadMem).length) →
      secs = (phdrs.filter elfLoadable).map
        (fun p => ⟨p.p_vaddr, p.p_filesz, p.p_flags, p⟩))
    ∧ (¬((∀ p ∈ phdrs, p.p_paddr = 0) ∧ 1 < (phdrs.filter elfLoadMem).length) →
      secs = (phdrs.filter elfLoadable).map
        (fun p => ⟨p.p_paddr, p.p_filesz, p.p_flags, p⟩)) := by
  have hsecs : secs = elf32BuildSections (elf32LoadToVaddr phdrs) phdrs := by
    rw [image_elf32_read_headers] at h
    split at h
    · exact absurd h (by simp)
    · split at h
      · exact absurd h (by simp)
      · exact (Except.ok.injEq _ _ ▸ h.symm)
  constructor
  · intro hcond
    have hltv : elf32LoadToVaddr phdrs = true := by
      rw [elf32LoadToVaddr, Bool.and_eq_true]
      refine ⟨(elf32ScanPaddr_fst phdrs).mpr hcond.1, ?_⟩
      rw [elf32ScanPaddr_snd phdrs hcond.1]
      exact decide_eq_true hcond.2
    rw [hsecs, hltv, elf32BuildSections_eq_map]
    simp
  · intro hcond
    have hltv : elf32LoadToVaddr phdrs = false := by
      rw [elf32LoadToVaddr]
      by_cases hall : ∀ p ∈ phdrs, p.p_paddr = 0
      · have hcnt : ¬1 < (phdrs.filter elfLoadMem).length := fun hc => hcond ⟨hall, hc⟩
        rw [elf32ScanPaddr_snd phdrs hall]
        simp [hcnt]
      · have : (elf32ScanPaddr phdrs).1 = false := by
          rcases Bool.eq_false_or_eq_true (elf32ScanPaddr phdrs).1 with h1 | h0
          · exact absurd ((elf32ScanPaddr_fst phdrs).mp h1) hall
          · exact h0
        simp [this]
    rw [hsecs, hltv, elf32BuildSections_eq_map]
    simp

/-- Witness: the heuristic theorem at a two-segment image with all-zero
physical addresses (both branches' hypotheses discharged by evaluation on
concrete headers). -/
theorem elf32_paddr_heuristic_witness :
    ((∀ p ∈ [(⟨1, 0, 0x20000000, 0, 16, 16, 5⟩ : Elf32Phdr), ⟨1, 16, 0x20001000, 0, 16, 16, 6⟩],
        p.p_paddr = 0)
      ∧ 1 < ([(⟨1, 0, 0x20000000, 0, 16, 16, 5⟩ : Elf32Phdr),
          ⟨1, 16, 0x20001000, 0, 16, 16, 6⟩].filter elfLoadMem).length)
    ∧ [(⟨0x20000000, 16, 5, ⟨1, 0, 0x20000000, 0, 16, 16, 5⟩⟩ : ElfSection),
        ⟨0x20001000, 16, 6, ⟨1, 16, 0x20001000, 0, 16, 16, 6⟩⟩] =
      ([(⟨1, 0, 0x20000000, 0, 16, 16, 5⟩ : Elf32Phdr),
          ⟨1, 16, 0x20001000, 0, 16, 16, 6⟩].filter elfLoadable).map
        (fun p => ⟨p.p_vaddr, p.p_filesz, p.p_flags, p⟩) :=
  ⟨⟨by decide, by decide⟩, by
    have h := (elf32_paddr_heuristic
      [⟨1, 0, 0x20000000, 0, 16, 16, 5⟩, ⟨1, 16, 0x20001000, 0, 16, 16, 6⟩]
      [⟨0x20000000, 16, 5, ⟨1, 0, 0x20000000, 0, 16, 16, 5⟩⟩,
       ⟨0x20001000, 16, 6, ⟨1, 16, 0x20001000, 0, 16, 16, 6⟩⟩] (by decide)).1
      ⟨by decide, by decide⟩
    exact h⟩

/-- C6: the ELF section read reads `min(size, p_filesz - offset)` bytes
starting at file position `p_offset + offset` of the backing segment, and a
read whose offset is at or beyond the segment's `p_filesz` returns success
with `size_read = 0` rather than an error. -/
theorem elf32_read_section_bounds (file : List Nat) (segment : Elf32Phdr)
    (offset size : Nat) :
    (segment.p_filesz ≤ offset →
      image_elf32_read_section file segment offset size = .ok ([], 0))
    ∧ (offset < segment.p_filesz →
      image_elf32_read_section file segment offset size =
        .ok ((file.drop (segment.p_offset + offset)).take
              (min size (segment.p_filesz - offset)),
            min size (segment.p_filesz - offset))) := by
  constructor
  · intro h
    rw [image_elf32_read_section, if_neg (by omega)]
  · intro h
    rw [image_elf32_read_section, if_pos h]

/-- Witness: both branches of the ELF read theorem at a concrete file and
segment (filesz 4, offset at/past the end and offset 0). -/
theorem elf32_read_section_bounds_witness :
    ((4 : Nat) ≤ 4
      ∧ image_elf32_read_section [1, 2, 3] ⟨1, 0, 0, 0, 4, 4, 0⟩ 4 2 = .ok ([], 0))
    ∧ ((0 : Nat) < 4
      ∧ image_elf32_read_section [1, 2, 3] ⟨1, 0, 0, 0, 4, 4, 0⟩ 0 2 = .ok ([1, 2], 2)) :=
  ⟨⟨by decide,
    (elf32_read_section_bounds [1, 2, 3] ⟨1, 0, 0, 0, 4, 4, 0⟩ 4 2).1 (by decide)⟩,
   ⟨by decide,
    ((elf32_read_section_bounds [1, 2, 3] ⟨1, 0, 0, 0, 4, 4, 0⟩ 0 2).2 (by decide)).trans
      (by decide)⟩⟩

/-- C7: image_read_section fails with ERROR_COMMAND_SYNTAX_ERROR whenever the
requested range runs past the section (`offset + size > sections[i].size`,
the first check for every type), and — whether or not that check fires —
whenever the image is a plain binary and the section index is not 0. -/
theorem image_read_section_syntax_errors (img : Image)
    (target : Nat → Option (List Nat)) (sect offset size : Nat)
    (secs : List Imagesection) (hsecs : img.sections = some secs) :
    (sect < secs.length → offset + size > (secs.getD sect noSection).size →
      image_read_section img target sect offset size = some (.err .badArgs, img))
    ∧ (img.type = .binary → sect ≠ 0 →
      image_read_section img target sect offset size = some (.err .badArgs, img)) := by
  constructor
  · intro _ hover
    rw [image_read_section]
    simp only [hsecs, Option.getD_some]
    rw [if_pos hover]
  · intro htype hsect
    rw [image_read_section]
    simp only [hsecs, Option.getD_some]
    by_cases hover : offset + size > (secs.getD sect noSection).size
    · rw [if_pos hover]
    · rw [if_neg hover, if_pos htype, if_pos hsect]

/-- Witness: the two syntax-error conditions at concrete binary images (an
over-long read of section 0, and a read of section 1). -/
theorem image_read_section_syntax_errors_witness :
    ((0 : Nat) + 4 > 3
      ∧ image_read_section ⟨.binary, 1, some [⟨0, 3, 0, .none⟩], 0, false, 0, false,
          some (.binary [1, 2, 3])⟩ (fun _ => Option.none) 0 0 4 =
        some (.err .badArgs, ⟨.binary, 1, some [⟨0, 3, 0, .none⟩], 0, false, 0, false,
          some (.binary [1, 2, 3])⟩))
    ∧ ((1 : Nat) ≠ 0
      ∧ image_read_section ⟨.binary, 1, some [⟨0, 3, 0, .none⟩], 0, false, 0, false,
          some (.binary [1, 2, 3])⟩ (fun _ => Option.none) 1 0 0 =
        some (.err .badArgs, ⟨.binary, 1, some [⟨0, 3, 0, .none⟩], 0, false, 0, false,
          some (.binary [1, 2, 3])⟩)) :=
  ⟨⟨by decide,
    (image_read_section_syntax_errors _ _ 0 0 4 _ rfl).1 (by decide) (by decide)⟩,
   ⟨by decide,
    (image_read_section_syntax_errors _ _ 1 0 0 _ rfl).2 rfl (by decide)⟩⟩

/-- C8 (amended): image_read_section never modifies the image's fields or its
sections; for every non-memory image the whole image — per-type private state
included — is returned unchanged, while a memory-image read may update the
page cache (contents and cache_address) inside `type_private`, or free it on a
failed target read. -/
theorem image_read_section_frame (img : Image) (target : Nat → Option (List Nat))
    (sect offset size : Nat) (r : ReadOutcome) (img' : Image)
    (h : image_read_section img target sect offset size = some (r, img')) :
    img'.type = img.type ∧ img'.num_sections = img.num_sections ∧
    img'.sections = img.sections ∧ img'.base_address = img.base_address ∧
    img'.base_address_set = img.base_address_set ∧
    img'.start_address = img.start_address ∧
    img'.start_address_set = img.start_address_set ∧
    (img.type ≠ .memory → img' = img) := by
  rw [image_read_section] at h
  repeat' split at h
  all_goals simp only [Option.some.injEq, Prod.mk.injEq, reduceCtorEq] at h
  all_goals obtain ⟨rfl, rfl⟩ := h.symm
  all_goals simp_all

/-- C8 counterexample step: evaluating the memory loop once. -/
theorem memLoop_eval :
    imageMemoryLoop memTarget Option.none 0 0 1 0 [] =
      .ok [0xaa] 1 (some (0xaa :: List.replicate 511 0)) 0 := by
  rw [imageMemoryLoop.eq_def]
  norm_num [memTarget, IMAGE_MEMORY_CACHE_SIZE, memCopyLen, memChunk]
  rw [imageMemoryLoop.eq_def]
  norm_num

/-- C8 counterexample: a one-byte read at offset 0 of a memory image with an
empty cache succeeds and fills the page cache: the image's per-type private
state differs after the call, so read_section does modify a memory image. -/
theorem image_read_section_modifies_memory_image :
    image_read_section memImg memTarget 0 0 1 = some (.ok [0xaa] 1, memImgAfter)
    ∧ memImgAfter ≠ memImg := by
  constructor
  · rw [image_read_section]
    simp only [memImg, Option.getD_some, List.getD]
    norm_num
    rw [memLoop_eval]
    exact ⟨by decide, by decide, by decide, rfl⟩
  · decide

/-- C9 counterexample: closing an open binary image succeeds (resetting
type_private and sections), but a second close dereferences the NULL
type_private (`image_binary->fileio`) instead of being a well-defined no-op. -/
theorem image_close_not_idempotent :
    image_close binImg = some (closedOf binImg)
    ∧ image_close (closedOf binImg) = none := by
  constructor <;> decide

/-- C9 (amended): calling close on an already-closed image is well-defined —
a no-op leaving the state unchanged — only for a BUILDER image with
num_sections = 0; for every other image type, a second close dereferences the
NULL type_private (undefined behavior). -/
theorem image_close_second_close (img : Image) :
    (img.type = .builder → img.num_sections = 0 →
      image_close img = some (closedOf img)
      ∧ image_close (closedOf img) = some (closedOf img))
    ∧ (img.type ≠ .builder → img.type_private = none → image_close img = none) := by
  obtain ⟨ty, ns, secs, ba, bas, sa, sas, tp⟩ := img
  constructor
  · intro hty hns
    dsimp only at hty hns
    subst hty hns
    constructor
    · rcases secs with _ | l
      · simp [image_close, closedOf]
      · simp [image_close, closedOf]
    · simp [image_close, closedOf]
  · intro hty htp
    dsimp only at hty htp
    subst htp
    cases ty
    · simp [image_close]
    · simp [image_close]
    · simp [image_close]
    · simp [image_close]
    · simp [image_close]
    · exact absurd rfl hty

/-- Witness: the amended close theorem at a freshly opened builder image
(no sections) and at the closed binary image. -/
theorem image_close_second_close_witness :
    ((image_close ⟨.builder, 0, none, 0, false, 0, false, none⟩ =
        some (closedOf ⟨.builder, 0, none, 0, false, 0, false, none⟩)
      ∧ image_close (closedOf ⟨.builder, 0, none, 0, false, 0, false, none⟩) =
        some (closedOf ⟨.builder, 0, none, 0, false, 0, false, none⟩))
    ∧ image_close (closedOf binImg) = none) :=
  ⟨(image_close_second_close ⟨.builder, 0, none, 0, false, 0, false, none⟩).1 rfl rfl,
   (image_close_second_close (closedOf binImg)).2 (by decide) rfl⟩

/-- Witness: the frame theorem at a successful concrete binary read (the
image, private state included, is returned unchanged). -/
theorem image_read_section_frame_witness :
    image_read_section binImg (fun _ => Option.none) 0 0 2 =
      some (.ok [1, 2] 2, binImg)
    ∧ (binImg.type = binImg.type ∧ binImg.num_sections = binImg.num_sections ∧
      binImg.sections = binImg.sections ∧ binImg.base_address = binImg.base_address ∧
      binImg.base_address_set = binImg.base_address_set ∧
      binImg.start_address = binImg.start_address ∧
      binImg.start_address_set = binImg.start_address_set ∧
      (binImg.type ≠ .memory → binImg = binImg)) :=
  ⟨by decide,
   image_read_section_frame binImg (fun _ => Option.none) 0 0 2 (.ok [1, 2] 2) binImg
     (by decide)⟩

end ImageC
